import Mathlib

/-!
Verification development for the goDNS wire-format codec.

The definitions below are a shallow embedding of the final-state Go
implementation (package `dns`, package `client`, package `records`):
bytes are modelled as `Nat` values in a `List Nat` buffer, Go's
`uint16`/`int32` values as `Nat`/`Int` with explicit wrap-around where
the code truncates, and every fallible Go function as a computable
function into `Except PErr`.  Reads of the buffer go through `readByte`
etc., which return the distinguished error `PErr.oobRead` exactly where
the Go code would panic with an out-of-range index, so bounds safety is
a provable statement about the embedding.  The recursive name decoder
`parseLabels` in Go can fail to terminate on crafted compression
pointers; its embedding `parseLabelsF` therefore takes a fuel argument,
consumed on every recursive step, and returns `PErr.outOfFuel` when the
fuel runs out.  Divergence of the Go original at an input is expressed
as `∀ fuel, parseLabelsF fuel … = .error .outOfFuel`.
-/

deriving instance DecidableEq for Except

namespace GoDNS

/-- Error outcomes of the decoder.  Constructors other than the two
markers correspond one-to-one to the `fmt.Errorf` sites of the Go code
(`pkg/client/client.go`); `oobRead` marks a buffer access that Go would
perform out of range (a panic), `outOfFuel` marks exhaustion of the
step budget of the fuelled name decoder (possible divergence). -/
inductive PErr where
  | tcpResponseTooShort
  | tcpLengthMismatch
  | responseTooShort
  | responseIDMismatch
  | compressionPtrTruncated
  | invalidCompressionPtr
  | labelDataTruncated
  | labelsNotTerminated
  | questionDataTruncated
  | rrHeaderDataTruncated
  | rrDataTruncated
  | invalidARecordLength
  | invalidAAAARecordLength
  | oobRead
  | outOfFuel
  deriving DecidableEq

/-- `dns.Label`: one length-prefixed segment of a domain name. -/
structure Label where
  Length : Nat
  Data : List Nat
  deriving DecidableEq

/-- `dns.Header`: the six 16-bit header fields. -/
structure Header where
  ID : Nat
  Flags : Nat
  QDCount : Nat
  ANCount : Nat
  NSCount : Nat
  ARCount : Nat
  deriving DecidableEq

/-- `dns.Question`: name, query type, query class. -/
structure Question where
  Name : List Label
  qtype : Nat
  qclass : Nat
  deriving DecidableEq

/-- The closed set of `dns.ResourceData` implementations from
`pkg/records`: `ARecord` (4-byte address), `AAAARecord` (16-byte
address), `NSRecord` (a name), `GenericRecord` (type code plus opaque
bytes). -/
inductive RData where
  | a (addr : List Nat)
  | aaaa (addr : List Nat)
  | ns (name : List Label)
  | generic (rrType : Nat) (data : List Nat)
  deriving DecidableEq

/-- `dns.ResourceRecord`. -/
structure ResourceRecord where
  Name : List Label
  rtype : Nat
  rclass : Nat
  TTL : Int
  RDLength : Nat
  RData : RData
  deriving DecidableEq

/-- `dns.Message`. -/
structure Message where
  Header : Header
  Question : List Question
  Answer : List ResourceRecord
  Authority : List ResourceRecord
  Additional : List ResourceRecord
  deriving DecidableEq

/-- A single byte read `data[i]`; `oobRead` where Go would panic. -/
def readByte (d : List Nat) (i : Nat) : Except PErr Nat :=
  match d.get? i with
  | some b => .ok b
  | none => .error .oobRead

/-- `binary.BigEndian.Uint16(data[i:i+2])`. -/
def readU16 (d : List Nat) (i : Nat) : Except PErr Nat := do
  let hi ← readByte d i
  let lo ← readByte d (i + 1)
  pure (hi * 256 + lo)

/-- `binary.BigEndian.Uint32(data[i:i+4])`. -/
def readU32 (d : List Nat) (i : Nat) : Except PErr Nat := do
  let hi ← readU16 d i
  let lo ← readU16 d (i + 2)
  pure (hi * 65536 + lo)

/-- The slice `data[i : i+n]`; `oobRead` where Go would panic. -/
def readSlice (d : List Nat) (i n : Nat) : Except PErr (List Nat) :=
  if i + n ≤ d.length then .ok ((d.drop i).take n)
  else .error .oobRead

/-- Go's `int32(u)` for a `uint32` value `u`: two's-complement
reinterpretation. -/
def toInt32 (u : Nat) : Int :=
  if u < 2 ^ 31 then (u : Int) else (u : Int) - 2 ^ 32

/-- `(*Client).parseLabels` from `pkg/client/client.go`, fuelled.
Each recursive call (both continuing after an ordinary label and
following a compression pointer) consumes one unit of fuel, so the
definition is structural and kernel-computable; the Go original
recurses unboundedly on pointers whose target does not make progress,
which this embedding reports as `outOfFuel` for every fuel value. -/
def parseLabelsF : Nat → List Nat → Nat → Except PErr (List Label × Nat)
  | 0, _, _ => .error .outOfFuel
  | fuel + 1, d, index =>
    if index < d.length then
      match readByte d index with
      | .error e => .error e
      | .ok b =>
        if b &&& 192 = 192 then
          -- compression pointer
          if d.length ≤ index + 1 then .error .compressionPtrTruncated
          else
            match readByte d (index + 1) with
            | .error e => .error e
            | .ok b2 =>
              -- the pointer target: `Uint16(data[index:index+2]) & 0x3FFF`
              if d.length ≤ (b &&& 63) * 256 + b2 then
                .error .invalidCompressionPtr
              else
                match parseLabelsF fuel d ((b &&& 63) * 256 + b2) with
                | .ok (ls, _) => .ok (ls, index + 2)
                | .error e => .error e
        else if b = 0 then
          -- null terminator
          .ok ([⟨0, []⟩], index + 1)
        else if d.length < index + 1 + b then .error .labelDataTruncated
        else
          match parseLabelsF fuel d (index + 1 + b) with
          | .ok (ls, j) => .ok (⟨b, (d.drop (index + 1)).take b⟩ :: ls, j)
          | .error e => .error e
    else .error .labelsNotTerminated

example : parseLabelsF 8 [3, 119, 119, 119, 0] 0 =
    .ok ([⟨3, [119, 119, 119]⟩, ⟨0, []⟩], 5) := by decide

example : parseLabelsF 8 [3, 119, 119, 119, 0, 192, 0] 5 =
    .ok ([⟨3, [119, 119, 119]⟩, ⟨0, []⟩], 7) := by decide

example : parseLabelsF 8 [192, 200] 0 = .error .invalidCompressionPtr := by
  decide

/-- `(*Client).parseQuestion`: a name, then 16-bit type and class. -/
def parseQuestionF (fuel : Nat) (d : List Nat) (index : Nat) :
    Except PErr (Question × Nat) :=
  match parseLabelsF fuel d index with
  | .error e => .error e
  | .ok (labels, ni) =>
    if d.length < ni + 4 then .error .questionDataTruncated
    else
      match readU16 d ni, readU16 d (ni + 2) with
      | .ok t, .ok c => .ok (⟨labels, t, c⟩, ni + 4)
      | .error e, _ => .error e
      | _, .error e => .error e

/-- `records.NewGenericRecord` allocates a buffer of the data's length
but performs no copy (its `// Copy the data` comment notwithstanding),
so the stored bytes are all zero. -/
def newGenericData (data : List Nat) : List Nat :=
  List.replicate data.length 0

/-- Go's `net.IP.To4` succeeds on a 16-byte address exactly when it is
IPv4-mapped: ten zero bytes followed by `0xff 0xff`. -/
def isV4Mapped (bs : List Nat) : Bool :=
  (bs.take 10).all (· = 0) && bs.getD 10 0 = 255 && bs.getD 11 0 = 255

/-- The RDATA dispatch `switch rrType` of `(*Client).parseResourceRecord`.
`d`/`ni` are the whole message and the absolute offset of the RDATA
(the NS branch re-parses a name from there); `rdataBytes` is the
declared-length slice.  `NewARecord(net.IPv4 …)` always succeeds, so
the A branch never takes its generic fallback; `NewAAAARecord` rejects
IPv4-mapped addresses, which therefore fall back to a generic record.
The NS branch falls back to a generic record when name parsing fails,
but divergence (`outOfFuel`) and a would-be panic (`oobRead`) of the
inner parse are propagated, matching the Go original where they are
not `error` values. -/
def parseRDataF (fuel : Nat) (d : List Nat) (ni : Nat) (rrType : Nat)
    (rdataBytes : List Nat) : Except PErr RData :=
  if rrType = 1 then
    if rdataBytes.length ≠ 4 then .error .invalidARecordLength
    else .ok (.a rdataBytes)
  else if rrType = 28 then
    if rdataBytes.length ≠ 16 then .error .invalidAAAARecordLength
    else if isV4Mapped rdataBytes then .ok (.generic 28 (newGenericData rdataBytes))
    else .ok (.aaaa rdataBytes)
  else if rrType = 2 then
    match parseLabelsF fuel d ni with
    | .ok (nsLabels, _) => .ok (.ns nsLabels)
    | .error .outOfFuel => .error .outOfFuel
    | .error .oobRead => .error .oobRead
    | .error _ => .ok (.generic 2 (newGenericData rdataBytes))
  else .ok (.generic rrType (newGenericData rdataBytes))

/-- `(*Client).parseResourceRecord`: name, 10 bytes of fixed fields,
then RDATA of the declared length. -/
def parseResourceRecordF (fuel : Nat) (d : List Nat) (index : Nat) :
    Except PErr (ResourceRecord × Nat) :=
  match parseLabelsF fuel d index with
  | .error e => .error e
  | .ok (labels, ni) =>
    if d.length < ni + 10 then .error .rrHeaderDataTruncated
    else
      match readU16 d ni, readU16 d (ni + 2), readU32 d (ni + 4),
          readU16 d (ni + 8) with
      | .ok t, .ok c, .ok u, .ok rdl =>
        if d.length < ni + 10 + rdl then .error .rrDataTruncated
        else
          match readSlice d (ni + 10) rdl with
          | .error e => .error e
          | .ok rdataBytes =>
            match parseRDataF fuel d (ni + 10) t rdataBytes with
            | .error e => .error e
            | .ok rdata =>
              .ok (⟨labels, t, c, toInt32 u, rdl, rdata⟩, ni + 10 + rdl)
      | .error e, _, _, _ => .error e
      | _, .error e, _, _ => .error e
      | _, _, .error e, _ => .error e
      | _, _, _, .error e => .error e

/-- The `QDCount`-driven question loop of `(*Client).parseResponse`. -/
def parseQuestionsF (fuel : Nat) (d : List Nat) :
    Nat → Nat → Except PErr (List Question × Nat)
  | index, 0 => .ok ([], index)
  | index, n + 1 =>
    match parseQuestionF fuel d index with
    | .error e => .error e
    | .ok (q, i2) =>
      match parseQuestionsF fuel d i2 n with
      | .error e => .error e
      | .ok (qs, j) => .ok (q :: qs, j)

/-- A count-driven resource-record loop of `(*Client).parseResponse`. -/
def parseRecordsF (fuel : Nat) (d : List Nat) :
    Nat → Nat → Except PErr (List ResourceRecord × Nat)
  | index, 0 => .ok ([], index)
  | index, n + 1 =>
    match parseResourceRecordF fuel d index with
    | .error e => .error e
    | .ok (rr, i2) =>
      match parseRecordsF fuel d i2 n with
      | .error e => .error e
      | .ok (rrs, j) => .ok (rr :: rrs, j)

/-- Big-endian bytes of a 16-bit value (`binary.Write` of `uint16`). -/
def u16be (n : Nat) : List Nat := [n / 256 % 256, n % 256]

/-- The TCP send-path framing from `(*Client).sendQuery`: prepend
`uint16(len(queryBytes))` big-endian (the length truncates to 16 bits,
as Go's conversion does). -/
def frameTCP (b : List Nat) : List Nat := u16be b.length ++ b

/-- The TCP receive-path unframing from `(*Client).parseResponse`:
check and strip the 2-byte prefix, failing when the declared length
differs from the number of bytes that follow. -/
def unframeTCP (d : List Nat) : Except PErr (List Nat) :=
  if d.length < 2 then .error .tcpResponseTooShort
  else
    match readU16 d 0 with
    | .error e => .error e
    | .ok len =>
      if len ≠ d.length - 2 then .error .tcpLengthMismatch
      else .ok (d.drop 2)

/-- The unframed part of `(*Client).parseResponse`: 12-byte header,
query-ID check, then the count-driven sections, the header counts being
the sole termination signal. -/
def parseMessageF (fuel : Nat) (d : List Nat) (expectedID : Nat) :
    Except PErr Message :=
  if d.length < 12 then .error .responseTooShort
  else
    match readU16 d 0, readU16 d 2, readU16 d 4, readU16 d 6, readU16 d 8,
        readU16 d 10 with
    | .ok id, .ok flags, .ok qd, .ok an, .ok ns, .ok ar =>
      if id ≠ expectedID then .error .responseIDMismatch
      else
        match parseQuestionsF fuel d 12 qd with
        | .error e => .error e
        | .ok (questions, i1) =>
          match parseRecordsF fuel d i1 an with
          | .error e => .error e
          | .ok (answers, i2) =>
            match parseRecordsF fuel d i2 ns with
            | .error e => .error e
            | .ok (authority, i3) =>
              match parseRecordsF fuel d i3 ar with
              | .error e => .error e
              | .ok (additional, _) =>
                .ok ⟨⟨id, flags, qd, an, ns, ar⟩, questions, answers,
                  authority, additional⟩
    | .error e, _, _, _, _, _ => .error e
    | _, .error e, _, _, _, _ => .error e
    | _, _, .error e, _, _, _ => .error e
    | _, _, _, .error e, _, _ => .error e
    | _, _, _, _, .error e, _ => .error e
    | _, _, _, _, _, .error e => .error e

/-- `(*Client).parseResponse`: for TCP, first check and strip the
2-byte length prefix (the `unframeTCP` logic, inlined in the Go code),
then decode the message. -/
def parseResponseF (fuel : Nat) (isTcp : Bool) (data0 : List Nat)
    (expectedID : Nat) : Except PErr Message :=
  match isTcp with
  | true =>
    match unframeTCP data0 with
    | .error e => .error e
    | .ok data => parseMessageF fuel data expectedID
  | false => parseMessageF fuel data0 expectedID

/-- Big-endian bytes of a 32-bit value (`binary.Write` of `uint32`). -/
def u32be (n : Nat) : List Nat :=
  [n / 16777216 % 256, n / 65536 % 256, n / 256 % 256, n % 256]

/-- `dns.HeaderQRQuery` (`0 << 15`). -/
def HeaderQRQuery : Nat := 0

/-- `dns.HeaderOpcodeQuery` (`0 << 11`). -/
def HeaderOpcodeQuery : Nat := 0

/-- `dns.HeaderRD` (`1 << 8`). -/
def HeaderRD : Nat := 1 <<< 8

/-- `(*Header).toBytes`: the six fields written big-endian in order. -/
def Header.toBytes (h : Header) : List Nat :=
  [h.ID, h.Flags, h.QDCount, h.ANCount, h.NSCount, h.ARCount].foldr
    (fun f acc => u16be f ++ acc) []

/-- `(*Label).ToBytes`: the length byte followed by the data bytes. -/
def Label.toBytes (l : Label) : List Nat := l.Length :: l.Data

/-- The label-concatenation loop shared by the question and RR encoders. -/
def nameBytes (name : List Label) : List Nat :=
  name.foldr (fun l acc => l.toBytes ++ acc) []

/-- `(*Question).toBytes`. -/
def Question.toBytes (q : Question) : List Nat :=
  nameBytes q.Name ++ u16be q.qtype ++ u16be q.qclass

/-- The `Bytes()` methods of the four `ResourceData` implementations. -/
def RData.bytes : RData → List Nat
  | .a addr => addr
  | .aaaa addr => addr
  | .ns name => nameBytes name
  | .generic _ data => data

/-- `(*ResourceRecord).toBytes`; the TTL (`int32`) is written as its
two's-complement 32-bit pattern. -/
def ResourceRecord.toBytes (rr : ResourceRecord) : List Nat :=
  nameBytes rr.Name ++ u16be rr.rtype ++ u16be rr.rclass ++
    u32be ((rr.TTL % 4294967296).toNat) ++ u16be rr.RDLength ++ rr.RData.bytes

/-- `(*Message).ToBytes`: header, questions, then the three record
sections, concatenated in order. -/
def Message.toBytes (m : Message) : List Nat :=
  m.Header.toBytes ++
    m.Question.foldr (fun q acc => q.toBytes ++ acc) [] ++
    m.Answer.foldr (fun rr acc => rr.toBytes ++ acc) [] ++
    m.Authority.foldr (fun rr acc => rr.toBytes ++ acc) [] ++
    m.Additional.foldr (fun rr acc => rr.toBytes ++ acc) []

/-- `strings.TrimSuffix(domain, ".")`: drop a single trailing dot.
Domain strings are modelled as their byte sequences (`.` is byte 46). -/
def trimDot (s : List Nat) : List Nat :=
  if s.getLast? = some 46 then s.dropLast else s

/-- `dns.StringToLabels`: trim a trailing dot, split on dots, one label
per part with a single-byte length (`byte(len(part))`, hence the
`% 256`), terminated by the null label. -/
def StringToLabels (domain : List Nat) : List Label :=
  if trimDot domain = [] then [⟨0, []⟩]
  else
    ((trimDot domain).splitOn 46).map (fun p => ⟨p.length % 256, p⟩) ++
      [⟨0, []⟩]

/-- `dns.LabelsToString`: collect label data up to the first zero-length
label and join with dots. -/
def LabelsToString (ls : List Label) : List Nat :=
  List.intercalate [46] ((ls.takeWhile (fun l => l.Length != 0)).map Label.Data)

example : StringToLabels [119, 119, 119] = [⟨3, [119, 119, 119]⟩, ⟨0, []⟩] := by
  decide

example : LabelsToString [⟨3, [119, 119, 119]⟩, ⟨0, []⟩] = [119, 119, 119] := by
  decide

example : frameTCP [1, 2, 3] = [0, 3, 1, 2, 3] := by decide

example : unframeTCP [0, 3, 1, 2, 3] = .ok [1, 2, 3] := by decide

/-! ## Helper lemmas -/

theorem exbind_ok {α β : Type} (a : α) (f : α → Except PErr β) :
    (Except.ok a : Except PErr α) >>= f = f a := rfl

theorem exbind_error {α β : Type} (e : PErr) (f : α → Except PErr β) :
    (Except.error e : Except PErr α) >>= f = .error e := rfl

theorem exthrow {α : Type} (e : PErr) : (throw e : Except PErr α) = .error e := rfl

theorem expure {α : Type} (a : α) : (pure a : Except PErr α) = .ok a := rfl

theorem readByte_ok {d : List Nat} {i : Nat} (h : i < d.length) :
    ∃ b, readByte d i = .ok b := by
  unfold readByte
  cases hq : d.get? i with
  | none => exact absurd (List.get?_eq_none.mp hq) (by omega)
  | some b => exact ⟨b, rfl⟩

theorem readByte_error {d : List Nat} {i : Nat} {e : PErr}
    (h : readByte d i = .error e) : d.length ≤ i ∧ e = .oobRead := by
  unfold readByte at h
  cases hq : d.get? i with
  | none =>
    rw [hq] at h
    exact ⟨List.get?_eq_none.mp hq, by injection h with h2; exact h2.symm⟩
  | some b => rw [hq] at h; exact absurd h (by simp)

theorem readU16_ok {d : List Nat} {i : Nat} (h : i + 1 < d.length) :
    ∃ v, readU16 d i = .ok v := by
  obtain ⟨b1, h1⟩ := readByte_ok (d := d) (i := i) (by omega)
  obtain ⟨b2, h2⟩ := readByte_ok (d := d) (i := i + 1) h
  exact ⟨b1 * 256 + b2, by rw [readU16, h1, exbind_ok, h2, exbind_ok]; rfl⟩

theorem readU16_get? {d : List Nat} {i a b : Nat}
    (ha : d.get? i = some a) (hb : d.get? (i + 1) = some b) :
    readU16 d i = .ok (a * 256 + b) := by
  rw [readU16, readByte, ha, readByte, hb]; rfl

theorem readU32_ok {d : List Nat} {i : Nat} (h : i + 3 < d.length) :
    ∃ v, readU32 d i = .ok v := by
  obtain ⟨v1, h1⟩ := readU16_ok (d := d) (i := i) (by omega)
  obtain ⟨v2, h2⟩ := readU16_ok (d := d) (i := i + 2) (by omega)
  exact ⟨v1 * 65536 + v2, by rw [readU32, h1, exbind_ok, h2, exbind_ok]; rfl⟩

theorem readSlice_ok {d : List Nat} {i n : Nat} (h : i + n ≤ d.length) :
    readSlice d i n = .ok ((d.drop i).take n) := by
  rw [readSlice, if_pos h]

/-! ## Bounds safety: no decode path performs an out-of-range read -/

theorem parseLabelsF_ne_oob (fuel : Nat) :
    ∀ d i, parseLabelsF fuel d i ≠ .error .oobRead := by
  induction fuel with
  | zero => intro d i h; exact absurd h (by simp [parseLabelsF])
  | succ n ih =>
    intro d i h
    rw [parseLabelsF] at h
    split at h
    · rename_i hlt
      split at h
      · rename_i e heq
        obtain ⟨-, rfl⟩ := readByte_error heq
        obtain ⟨b, hb⟩ := readByte_ok hlt
        rw [hb] at heq
        exact absurd heq (by simp)
      · rename_i b heq
        split at h
        · split at h
          · exact absurd h (by simp)
          · rename_i hlen2
            split at h
            · rename_i e2 heq2
              obtain ⟨hge, rfl⟩ := readByte_error heq2
              omega
            · rename_i b2 heq2
              split at h
              · exact absurd h (by simp)
              · split at h
                · exact absurd h (by simp)
                · rename_i e3 heq3
                  injection h with h4
                  exact ih d _ (h4 ▸ heq3)
        · split at h
          · exact absurd h (by simp)
          · split at h
            · exact absurd h (by simp)
            · split at h
              · exact absurd h (by simp)
              · rename_i e3 heq3
                injection h with h4
                exact ih d _ (h4 ▸ heq3)
    · exact absurd h (by simp)

theorem readU16_error {d : List Nat} {i : Nat} {e : PErr}
    (h : readU16 d i = .error e) : d.length ≤ i + 1 ∧ e = .oobRead := by
  rw [readU16] at h
  cases h1 : readByte d i with
  | error e1 =>
    rw [h1, exbind_error] at h
    injection h with h2
    obtain ⟨hb, rfl⟩ := readByte_error h1
    exact ⟨by omega, h2.symm⟩
  | ok b1 =>
    rw [h1, exbind_ok] at h
    cases h2 : readByte d (i + 1) with
    | error e2 =>
      rw [h2, exbind_error] at h
      injection h with h3
      obtain ⟨hb, rfl⟩ := readByte_error h2
      exact ⟨hb, h3.symm⟩
    | ok b2 =>
      rw [h2, exbind_ok, expure] at h
      exact absurd h (by simp)

theorem readU32_error {d : List Nat} {i : Nat} {e : PErr}
    (h : readU32 d i = .error e) : d.length ≤ i + 3 ∧ e = .oobRead := by
  rw [readU32] at h
  cases h1 : readU16 d i with
  | error e1 =>
    rw [h1, exbind_error] at h
    injection h with h2
    obtain ⟨hb, rfl⟩ := readU16_error h1
    exact ⟨by omega, h2.symm⟩
  | ok v1 =>
    rw [h1, exbind_ok] at h
    cases h2 : readU16 d (i + 2) with
    | error e2 =>
      rw [h2, exbind_error] at h
      injection h with h3
      obtain ⟨hb, rfl⟩ := readU16_error h2
      exact ⟨by omega, h3.symm⟩
    | ok v2 =>
      rw [h2, exbind_ok, expure] at h
      exact absurd h (by simp)

theorem readSlice_error {d : List Nat} {i n : Nat} {e : PErr}
    (h : readSlice d i n = .error e) : d.length < i + n := by
  rw [readSlice] at h
  split at h
  · exact absurd h (by simp)
  · omega

theorem parseQuestionF_ne_oob (fuel : Nat) (d : List Nat) (i : Nat) :
    parseQuestionF fuel d i ≠ .error .oobRead := by
  intro h
  unfold parseQuestionF at h
  split at h
  · rename_i e heq
    injection h with h2
    exact parseLabelsF_ne_oob fuel d i (h2 ▸ heq)
  · rename_i labels ni heq
    split at h
    · exact absurd h (by simp)
    · rename_i hlen
      obtain ⟨t, ht⟩ := readU16_ok (d := d) (i := ni) (by omega)
      obtain ⟨c, hc⟩ := readU16_ok (d := d) (i := ni + 2) (by omega)
      simp only [ht, hc] at h
      exact absurd h (by simp)

theorem parseRDataF_ne_oob (fuel : Nat) (d : List Nat) (ni t : Nat)
    (bytes : List Nat) : parseRDataF fuel d ni t bytes ≠ .error .oobRead := by
  intro h
  unfold parseRDataF at h
  split at h
  · split at h <;> exact absurd h (by simp)
  · split at h
    · split at h
      · exact absurd h (by simp)
      · split at h <;> exact absurd h (by simp)
    · split at h
      · split at h
        · exact absurd h (by simp)
        · exact absurd h (by simp)
        · rename_i heq
          exact parseLabelsF_ne_oob fuel d ni heq
        · exact absurd h (by simp)
      · exact absurd h (by simp)

theorem parseResourceRecordF_ne_oob (fuel : Nat) (d : List Nat) (i : Nat) :
    parseResourceRecordF fuel d i ≠ .error .oobRead := by
  intro h
  unfold parseResourceRecordF at h
  split at h
  · rename_i e heq
    injection h with h2
    exact parseLabelsF_ne_oob fuel d i (h2 ▸ heq)
  · rename_i labels ni heq
    split at h
    · exact absurd h (by simp)
    · rename_i hlen
      obtain ⟨t, ht⟩ := readU16_ok (d := d) (i := ni) (by omega)
      obtain ⟨c, hc⟩ := readU16_ok (d := d) (i := ni + 2) (by omega)
      obtain ⟨u, hu⟩ := readU32_ok (d := d) (i := ni + 4) (by omega)
      obtain ⟨rdl, hrdl⟩ := readU16_ok (d := d) (i := ni + 8) (by omega)
      simp only [ht, hc, hu, hrdl] at h
      split at h
      · exact absurd h (by simp)
      · rename_i hlen2
        split at h
        · rename_i e2 heq2
          have := readSlice_error heq2
          omega
        · rename_i rdataBytes heq2
          split at h
          · rename_i e3 heq3
            injection h with h4
            exact parseRDataF_ne_oob fuel d (ni + 10) t rdataBytes (h4 ▸ heq3)
          · exact absurd h (by simp)

theorem parseQuestionsF_ne_oob (fuel : Nat) (d : List Nat) :
    ∀ n i, parseQuestionsF fuel d i n ≠ .error .oobRead := by
  intro n
  induction n with
  | zero => intro i h; exact absurd h (by simp [parseQuestionsF])
  | succ m ih =>
    intro i h
    unfold parseQuestionsF at h
    split at h
    · rename_i e heq
      injection h with h2
      exact parseQuestionF_ne_oob fuel d i (h2 ▸ heq)
    · split at h
      · rename_i e heq
        injection h with h2
        exact ih _ (h2 ▸ heq)
      · exact absurd h (by simp)

theorem parseRecordsF_ne_oob (fuel : Nat) (d : List Nat) :
    ∀ n i, parseRecordsF fuel d i n ≠ .error .oobRead := by
  intro n
  induction n with
  | zero => intro i h; exact absurd h (by simp [parseRecordsF])
  | succ m ih =>
    intro i h
    unfold parseRecordsF at h
    split at h
    · rename_i e heq
      injection h with h2
      exact parseResourceRecordF_ne_oob fuel d i (h2 ▸ heq)
    · split at h
      · rename_i e heq
        injection h with h2
        exact ih _ (h2 ▸ heq)
      · exact absurd h (by simp)

theorem parseMessageF_ne_oob (fuel : Nat) (d : List Nat) (eid : Nat) :
    parseMessageF fuel d eid ≠ .error .oobRead := by
  intro h
  unfold parseMessageF at h
  split at h
  · exact absurd h (by simp)
  · rename_i hlen
    obtain ⟨id, hid⟩ := readU16_ok (d := d) (i := 0) (by omega)
    obtain ⟨flags, hflags⟩ := readU16_ok (d := d) (i := 2) (by omega)
    obtain ⟨qd, hqd⟩ := readU16_ok (d := d) (i := 4) (by omega)
    obtain ⟨an, han⟩ := readU16_ok (d := d) (i := 6) (by omega)
    obtain ⟨ns, hns⟩ := readU16_ok (d := d) (i := 8) (by omega)
    obtain ⟨ar, har⟩ := readU16_ok (d := d) (i := 10) (by omega)
    simp only [hid, hflags, hqd, han, hns, har] at h
    split at h
    · exact absurd h (by simp)
    · split at h
      · rename_i e heq
        injection h with h2
        exact parseQuestionsF_ne_oob fuel d qd 12 (h2 ▸ heq)
      · rename_i questions i1 heq
        split at h
        · rename_i e heq2
          injection h with h2
          exact parseRecordsF_ne_oob fuel d an i1 (h2 ▸ heq2)
        · rename_i answers i2 heq2
          split at h
          · rename_i e heq3
            injection h with h2
            exact parseRecordsF_ne_oob fuel d ns i2 (h2 ▸ heq3)
          · rename_i authority i3 heq3
            split at h
            · rename_i e heq4
              injection h with h2
              exact parseRecordsF_ne_oob fuel d ar i3 (h2 ▸ heq4)
            · exact absurd h (by simp)

theorem unframeTCP_ne_oob (d : List Nat) : unframeTCP d ≠ .error .oobRead := by
  intro h
  unfold unframeTCP at h
  split at h
  · exact absurd h (by simp)
  · rename_i hlen
    split at h
    · rename_i e heq
      injection h with h2
      obtain ⟨hb, -⟩ := readU16_error heq
      omega
    · split at h <;> exact absurd h (by simp)

theorem parseResponseF_ne_oob (fuel : Nat) (isTcp : Bool) (d : List Nat)
    (eid : Nat) : parseResponseF fuel isTcp d eid ≠ .error .oobRead := by
  intro h
  cases isTcp with
  | false => exact parseMessageF_ne_oob fuel d eid h
  | true =>
    unfold parseResponseF at h
    cases hu : unframeTCP d with
    | error e =>
      simp only [hu] at h
      injection h with h2
      exact unframeTCP_ne_oob d (h2 ▸ hu)
    | ok data =>
      simp only [hu] at h
      exact parseMessageF_ne_oob fuel data eid h

/-! ## Shape of successfully decoded names -/

theorem parseLabelsF_ok_shape (fuel : Nat) :
    ∀ d i ls j, parseLabelsF fuel d i = .ok (ls, j) →
      ∃ ls0, ls = ls0 ++ [(⟨0, []⟩ : Label)] ∧ ∀ l ∈ ls0, l.Length ≠ 0 := by
  induction fuel with
  | zero => intro d i ls j h; exact absurd h (by simp [parseLabelsF])
  | succ n ih =>
    intro d i ls j h
    rw [parseLabelsF] at h
    split at h
    · split at h
      · exact absurd h (by simp)
      · rename_i b heq
        split at h
        · -- compression-pointer branch
          split at h
          · exact absurd h (by simp)
          · split at h
            · exact absurd h (by simp)
            · rename_i b2 heq2
              split at h
              · exact absurd h (by simp)
              · split at h
                · rename_i ls1 j1 heq3
                  injection h with h4
                  injection h4 with h5 h6
                  obtain ⟨ls0, hEq, hall⟩ := ih d _ ls1 j1 heq3
                  exact ⟨ls0, h5 ▸ hEq, hall⟩
                · exact absurd h (by simp)
        · split at h
          · -- null terminator
            injection h with h4
            injection h4 with h5 h6
            exact ⟨[], h5 ▸ rfl, by simp⟩
          · rename_i hb0
            split at h
            · exact absurd h (by simp)
            · split at h
              · rename_i ls1 j1 heq3
                injection h with h4
                injection h4 with h5 h6
                obtain ⟨ls0, hEq, hall⟩ := ih d _ ls1 j1 heq3
                refine ⟨⟨b, (d.drop (i + 1)).take b⟩ :: ls0, ?_, ?_⟩
                · rw [← h5, hEq]; rfl
                · intro l hl
                  rcases List.mem_cons.mp hl with hl | hl
                  · rw [hl]; exact hb0
                  · exact hall l hl
              · exact absurd h (by simp)
    · exact absurd h (by simp)

/-! ## Claim theorems -/

/-- C10: whenever name decoding succeeds, the returned label sequence is
non-empty, its last element is the zero-length label, and that terminal
label is the only zero-length label in the sequence — for names read
label by label and for names completed through compression pointers
alike. -/
theorem decoded_name_terminal_invariant (fuel : Nat) (d : List Nat)
    (i : Nat) (ls : List Label) (j : Nat)
    (h : parseLabelsF fuel d i = .ok (ls, j)) :
    ls ≠ [] ∧ ls.getLast? = some ⟨0, []⟩ ∧
      ∀ l ∈ ls.dropLast, l.Length ≠ 0 := by
  obtain ⟨ls0, rfl, hall⟩ := parseLabelsF_ok_shape fuel d i ls j h
  refine ⟨by simp, ?_, ?_⟩
  · rw [List.getLast?_concat]
  · rw [List.dropLast_concat]
    exact hall

/-- Witness for C10 at a concrete compressed name: the buffer holds
`www.` at offset 0 and a pointer to it at offset 5. -/
theorem decoded_name_terminal_invariant_witness :
    ([⟨3, [119, 119, 119]⟩, ⟨0, []⟩] : List Label) ≠ [] ∧
      ([⟨3, [119, 119, 119]⟩, ⟨0, []⟩] : List Label).getLast? =
        some ⟨0, []⟩ ∧
      ∀ l ∈ ([⟨3, [119, 119, 119]⟩, ⟨0, []⟩] : List Label).dropLast,
        l.Length ≠ 0 :=
  decoded_name_terminal_invariant 8 [3, 119, 119, 119, 0, 192, 0] 5
    [⟨3, [119, 119, 119]⟩, ⟨0, []⟩] 7 (by decide)

/-- C1 (code bug): the decoder does not reject a compression pointer
whose target offset is ≥ the pointer's own offset.  A self-referential
pointer (`C0 00` at offset 0, target 0) makes the Go code recurse
forever — the embedding runs out of fuel for every fuel value and never
returns `InvalidCompressionPointer`; a forward pointer (`C0 02` at
offset 0, target 2 > 0) is happily followed and decoding succeeds. -/
theorem pointer_no_progress_diverges :
    (∀ fuel, parseLabelsF fuel [192, 0] 0 = .error .outOfFuel) ∧
      parseLabelsF 8 [192, 2, 0] 0 = .ok ([⟨0, []⟩], 2) := by
  constructor
  · intro fuel
    induction fuel with
    | zero => rfl
    | succ n ih =>
      have hstep : parseLabelsF (n + 1) [192, 0] 0 =
          match parseLabelsF n [192, 0] 0 with
          | .ok (ls, _) => .ok (ls, 2)
          | .error e => .error e := rfl
      rw [hstep, ih]
  · decide

/-- C4: the header encoder produces exactly 12 bytes, the six 16-bit
fields big-endian in order ID, Flags, QDCount, ANCount, NSCount,
ARCount; the header `{ID=0xBEEF, Flags=QR_QUERY|OPCODE_QUERY|RD,
QDCount=1}` encodes to `BE EF 01 00 00 01 00 00 00 00 00 00`. -/
theorem header_encode_layout :
    (∀ h : Header, Header.toBytes h =
        u16be h.ID ++ u16be h.Flags ++ u16be h.QDCount ++ u16be h.ANCount ++
          u16be h.NSCount ++ u16be h.ARCount ∧
        (Header.toBytes h).length = 12) ∧
      Header.toBytes
          ⟨48879, HeaderQRQuery ||| HeaderOpcodeQuery ||| HeaderRD, 1, 0, 0, 0⟩ =
        [190, 239, 1, 0, 0, 1, 0, 0, 0, 0, 0, 0] := by
  refine ⟨fun h => ⟨?_, ?_⟩, by decide⟩
  · simp [Header.toBytes, List.append_assoc]
  · simp [Header.toBytes, u16be]

/-- C5: a resource record with Type `A` and RDLength 4 decodes to the
`A` variant built from the 4 raw data bytes; concretely, raw data
`5D B8 D8 22` yields the `A` variant for 93.184.216.34 (the record used
below carries the root name, class IN and TTL 60). -/
theorem a_record_decode :
    (∀ fuel d ni bytes, bytes.length = 4 →
        parseRDataF fuel d ni 1 bytes = .ok (.a bytes)) ∧
      parseResourceRecordF 8
          [0, 0, 1, 0, 1, 0, 0, 0, 60, 0, 4, 93, 184, 216, 34] 0 =
        .ok (⟨[⟨0, []⟩], 1, 1, 60, 4, .a [93, 184, 216, 34]⟩, 15) := by
  constructor
  · intro fuel d ni bytes hlen
    simp [parseRDataF, hlen]
  · decide

/-- Witness for C5 at the concrete bytes 93.184.216.34. -/
theorem a_record_decode_witness :
    parseRDataF 1 [] 0 1 [93, 184, 216, 34] = .ok (.a [93, 184, 216, 34]) :=
  a_record_decode.1 1 [] 0 [93, 184, 216, 34] (by decide)

/-- C6 (code bug): a record of an unhandled type (here 16 = TXT) does
decode to the `Generic` variant tagged with the original type code, but
the stored bytes are all zero rather than the raw RDATA, because
`NewGenericRecord` allocates without copying; and a Type A or AAAA
record whose RDLength mismatches aborts with an error instead of
falling back to `Generic`. -/
theorem generic_rdata_divergence :
    parseRDataF 1 [] 0 16 [171, 205] = .ok (.generic 16 [0, 0]) ∧
      parseRDataF 1 [] 0 1 [171, 205] = .error .invalidARecordLength ∧
      parseRDataF 1 [] 0 28 [171, 205] = .error .invalidAAAARecordLength := by
  decide

/-- C9: the response parser itself rejects a response whose decoded
16-bit ID differs from the expected query ID, before any section is
parsed, so no message is ever produced for a mismatched ID. -/
theorem response_id_checked (fuel : Nat) (d : List Nat) (eid v : Nat)
    (hlen : 12 ≤ d.length) (hv : readU16 d 0 = .ok v) (hne : v ≠ eid) :
    parseMessageF fuel d eid = .error .responseIDMismatch := by
  unfold parseMessageF
  rw [if_neg (by omega)]
  obtain ⟨flags, hflags⟩ := readU16_ok (d := d) (i := 2) (by omega)
  obtain ⟨qd, hqd⟩ := readU16_ok (d := d) (i := 4) (by omega)
  obtain ⟨an, han⟩ := readU16_ok (d := d) (i := 6) (by omega)
  obtain ⟨ns, hns⟩ := readU16_ok (d := d) (i := 8) (by omega)
  obtain ⟨ar, har⟩ := readU16_ok (d := d) (i := 10) (by omega)
  simp only [hv, hflags, hqd, han, hns, har]
  rw [if_pos hne]

/-- Witness for C9: a 12-byte header with ID `0x1234` checked against
expected ID 0. -/
theorem response_id_checked_witness :
    parseMessageF 1 [18, 52, 0, 0, 0, 0, 0, 0, 0, 0, 0, 0] 0 =
      .error .responseIDMismatch :=
  response_id_checked 1 [18, 52, 0, 0, 0, 0, 0, 0, 0, 0, 0, 0] 0 4660
    (by decide) (by decide) (by decide)

/-- C7: stream framing prepends a 2-byte big-endian length counting
only the message bytes (for any message that fits the 16-bit length
field); a 25-byte message frames to 27 bytes beginning `00 19`;
unframing a framed buffer recovers the original bytes, and unframing
fails with the framing error whenever the declared length differs from
the number of bytes following the prefix. -/
theorem tcp_framing :
    (∀ b : List Nat, b.length < 65536 →
        frameTCP b = u16be b.length ++ b ∧
        (frameTCP b).length = b.length + 2 ∧
        unframeTCP (frameTCP b) = .ok b) ∧
      (∀ d : List Nat, ∀ v, 2 ≤ d.length → readU16 d 0 = .ok v →
        v ≠ d.length - 2 → unframeTCP d = .error .tcpLengthMismatch) ∧
      ((frameTCP (List.replicate 25 7)).length = 27 ∧
        (frameTCP (List.replicate 25 7)).take 2 = [0, 25] ∧
        unframeTCP (frameTCP (List.replicate 25 7)) =
          .ok (List.replicate 25 7)) := by
  refine ⟨fun b hb => ⟨rfl, by simp [frameTCP, u16be], ?_⟩, fun d v h2 hv hne => ?_, by decide⟩
  · have hr : readU16 (frameTCP b) 0 = .ok b.length := by
      have := readU16_get? (d := frameTCP b) (i := 0)
        (a := b.length / 256 % 256) (b := b.length % 256) rfl rfl
      rw [this]
      congr 1
      omega
    unfold unframeTCP
    rw [if_neg (by simp [frameTCP, u16be])]
    simp only [hr]
    simp [frameTCP, u16be]
  · unfold unframeTCP
    rw [if_neg (by omega)]
    simp only [hv]
    rw [if_pos hne]

/-- Witness for C7 at a 3-byte message. -/
theorem tcp_framing_witness :
    unframeTCP (frameTCP [1, 2, 3]) = .ok [1, 2, 3] :=
  (tcp_framing.1 [1, 2, 3] (by decide)).2.2

/-- A 14-byte buffer: valid header with ID `0xBEEF` and `ANCount = 1`,
followed only by the two bytes `C0 0C` — a compression pointer at
offset 12 targeting offset 12, inside a message that is too short for
the record its header declares. -/
def c2LoopBuf : List Nat := [190, 239, 0, 0, 0, 0, 0, 1, 0, 0, 0, 0, 192, 12]

/-- The decoder, given any fuel budget whatsoever, exhausts it on this
input instead of producing a result or an error: this is how the
embedding expresses that the unfuelled Go original never returns. -/
def decodeDiverges (d : List Nat) (eid : Nat) : Prop :=
  ∀ fuel, parseMessageF fuel d eid = .error .outOfFuel

/-- C2 counterexample: a concrete buffer shorter than its header
declares (`ANCount = 1`, no complete record) on which decoding never
returns a `Truncated*` error: the answer record's name is a
self-referential compression pointer, so the decoder diverges. -/
theorem truncated_message_pointer_loop :
    decodeDiverges c2LoopBuf 48879 := by
  intro fuel
  have hlab : ∀ f, parseLabelsF f c2LoopBuf 12 = .error .outOfFuel := by
    intro f
    induction f with
    | zero => rfl
    | succ n ih =>
      have hstep : parseLabelsF (n + 1) c2LoopBuf 12 =
          match parseLabelsF n c2LoopBuf 12 with
          | .ok (ls, _) => .ok (ls, 14)
          | .error e => .error e := rfl
      rw [hstep, ih]
  have hrr : parseResourceRecordF fuel c2LoopBuf 12 = .error .outOfFuel := by
    unfold parseResourceRecordF
    simp only [hlab fuel]
  have hrecs : parseRecordsF fuel c2LoopBuf 12 1 = .error .outOfFuel := by
    have hstep : parseRecordsF fuel c2LoopBuf 12 1 =
        match parseResourceRecordF fuel c2LoopBuf 12 with
        | .error e => .error e
        | .ok (rr, i2) =>
          match parseRecordsF fuel c2LoopBuf i2 0 with
          | .error e => .error e
          | .ok (rrs, j) => .ok (rr :: rrs, j) := rfl
    rw [hstep]
    simp only [hrr]
  have hstep : parseMessageF fuel c2LoopBuf 48879 =
      match parseRecordsF fuel c2LoopBuf 12 1 with
      | .error e => .error e
      | .ok (answers, i2) =>
        .ok ⟨⟨48879, 0, 0, 1, 0, 0⟩, [], answers, [], []⟩ := rfl
  rw [hstep]
  simp only [hrecs]

/-- A 25-byte buffer: valid header with ID `0xBEEF` and `ANCount = 2`,
one complete answer record (root name, Type 16, Class 1, TTL 0,
RDLength 1, one data byte), then only the root-name byte of the second
record. -/
def c2TruncBuf : List Nat :=
  [190, 239, 0, 0, 0, 0, 0, 2, 0, 0, 0, 0,
   0, 0, 16, 0, 1, 0, 0, 0, 0, 0, 1, 5, 0]

/-- C2 (amended): decoding never performs an out-of-range read (hence
never panics while it terminates); a buffer under 12 bytes fails with
the truncated-header error; a name whose declared label length runs
past the buffer fails with the label-truncation error; a record (or
question) whose fixed fields or declared RDLength run past the buffer
fails with the corresponding truncation error; and the concrete
`ANCount = 2` buffer holding only one complete record fails with the
record-truncation error.  All this holds provided name decoding makes
progress: a truncated buffer whose name is a non-progressing
compression-pointer chain diverges instead (see the counterexample). -/
theorem truncation_safety :
    (∀ fuel isTcp d eid, parseResponseF fuel isTcp d eid ≠ .error .oobRead) ∧
      (∀ fuel d eid, d.length < 12 →
        parseMessageF fuel d eid = .error .responseTooShort) ∧
      (∀ fuel d i b, d.get? i = some b → ¬b &&& 192 = 192 → ¬b = 0 →
        d.length < i + 1 + b →
        parseLabelsF (fuel + 1) d i = .error .labelDataTruncated) ∧
      (∀ fuel d i labels ni, parseLabelsF fuel d i = .ok (labels, ni) →
        d.length < ni + 4 →
        parseQuestionF fuel d i = .error .questionDataTruncated) ∧
      (∀ fuel d i labels ni, parseLabelsF fuel d i = .ok (labels, ni) →
        d.length < ni + 10 →
        parseResourceRecordF fuel d i = .error .rrHeaderDataTruncated) ∧
      (∀ fuel d i labels ni t c u rdl,
        parseLabelsF fuel d i = .ok (labels, ni) → ¬d.length < ni + 10 →
        readU16 d ni = .ok t → readU16 d (ni + 2) = .ok c →
        readU32 d (ni + 4) = .ok u → readU16 d (ni + 8) = .ok rdl →
        d.length < ni + 10 + rdl →
        parseResourceRecordF fuel d i = .error .rrDataTruncated) ∧
      parseMessageF 8 c2TruncBuf 48879 = .error .rrHeaderDataTruncated := by
  refine ⟨parseResponseF_ne_oob, ?_, ?_, ?_, ?_, ?_, by decide⟩
  · intro fuel d eid h
    unfold parseMessageF
    rw [if_pos h]
  · intro fuel d i b hb hptr hb0 htr
    obtain ⟨hlt, -⟩ := List.get?_eq_some.mp hb
    have hrb : readByte d i = .ok b := by rw [readByte, hb]
    rw [parseLabelsF, if_pos hlt]
    simp only [hrb]
    rw [if_neg hptr, if_neg hb0, if_pos htr]
  · intro fuel d i labels ni hname hlen
    unfold parseQuestionF
    simp only [hname]
    rw [if_pos hlen]
  · intro fuel d i labels ni hname hlen
    unfold parseResourceRecordF
    simp only [hname]
    rw [if_pos hlen]
  · intro fuel d i labels ni t c u rdl hname hlen ht hc hu hrdl hlast
    unfold parseResourceRecordF
    simp only [hname]
    rw [if_neg hlen]
    simp only [ht, hc, hu, hrdl]
    rw [if_pos hlast]

/-- Witness for C2 at a 3-byte buffer (shorter than the header). -/
theorem truncation_safety_witness :
    parseMessageF 3 [1, 2, 3] 7 = .error .responseTooShort :=
  truncation_safety.2.1 3 [1, 2, 3] 7 (by decide)

/-- A pointer-free message with ID `0xBEEF`, flags RD, no questions and
one answer record of the unhandled Type 16 whose Generic RDATA holds
the single byte `0xAB`; all counts and `RDLength` agree with the
section contents, so it lies squarely inside C3's hypothesis. -/
def c3Msg : Message :=
  ⟨⟨48879, 256, 0, 1, 0, 0⟩, [],
    [⟨[⟨1, [97]⟩, ⟨0, []⟩], 16, 1, 60, 1, .generic 16 [171]⟩], [], []⟩

/-- C3 (code bug): decoding the encoding of the pointer-free message
`c3Msg` succeeds but does not reproduce it — the answer's Generic RDATA
byte `0xAB` comes back as `0x00`, because `NewGenericRecord` on the
decode path allocates without copying. -/
theorem roundtrip_generic_zeroed :
    parseMessageF 8 c3Msg.toBytes 48879 =
      .ok ⟨⟨48879, 256, 0, 1, 0, 0⟩, [],
        [⟨[⟨1, [97]⟩, ⟨0, []⟩], 16, 1, 60, 1, .generic 16 [0]⟩], [], []⟩ ∧
      parseMessageF 8 c3Msg.toBytes 48879 ≠ .ok c3Msg := by
  exact ⟨by decide, by decide⟩

theorem takeWhile_append_all {α : Type} (q : α → Bool) :
    ∀ (xs ys : List α), (∀ x ∈ xs, q x = true) →
      (xs ++ ys).takeWhile q = xs ++ ys.takeWhile q := by
  intro xs
  induction xs with
  | nil => intro ys h; rfl
  | cons a l ih =>
    intro ys hall
    have ha : q a = true := hall a (by simp)
    simp only [List.cons_append, List.takeWhile_cons, ha, if_true]
    rw [ih ys fun x hx => hall x (by simp [hx])]

set_option maxRecDepth 8000 in
/-- C8 counterexample: a domain consisting of one 256-byte label (no
empty labels anywhere) does not survive the round trip: Go stores the
label length as `byte(len(part))`, so 256 wraps to 0, `LabelsToString`
treats the label as the terminator, and the round trip returns the
empty string instead of the original domain. -/
theorem label_length_byte_truncation :
    LabelsToString (StringToLabels (List.replicate 256 97)) = [] ∧
      trimDot (List.replicate 256 97) = List.replicate 256 97 ∧
      List.replicate 256 97 ≠ ([] : List Nat) := by
  refine ⟨by decide, by decide, by decide⟩

/-- C8 (amended): for every domain string whose labels (after dropping
one trailing dot) are all non-empty and shorter than 256 bytes,
converting to labels and back yields the domain with any trailing dot
removed; and `stringToName("example.com")` is exactly
`[(7,"example"), (3,"com"), (0,ø)]`. -/
theorem string_name_roundtrip :
    (∀ s : List Nat,
        (trimDot s = [] ∨
          ∀ p ∈ (trimDot s).splitOn 46, p ≠ [] ∧ p.length < 256) →
        LabelsToString (StringToLabels s) = trimDot s) ∧
      StringToLabels [101, 120, 97, 109, 112, 108, 101, 46, 99, 111, 109] =
        [⟨7, [101, 120, 97, 109, 112, 108, 101]⟩, ⟨3, [99, 111, 109]⟩,
          ⟨0, []⟩] := by
  constructor
  · intro s hs
    by_cases ht : trimDot s = []
    · rw [StringToLabels, if_pos ht, ht]
      decide
    · have hp := hs.resolve_left ht
      rw [StringToLabels, if_neg ht]
      unfold LabelsToString
      rw [takeWhile_append_all _ _ _ ?all]
      case all =>
        intro x hx
        obtain ⟨p, hpmem, rfl⟩ := List.mem_map.mp hx
        obtain ⟨hne, hlt⟩ := hp p hpmem
        have hpos : 0 < p.length := List.length_pos.mpr hne
        simp only [bne_iff_ne, ne_eq, decide_eq_true_eq]
        rw [Nat.mod_eq_of_lt hlt]
        omega
      have hz : List.takeWhile (fun l => l.Length != 0)
          [(⟨0, []⟩ : Label)] = [] := rfl
      rw [hz, List.append_nil, List.map_map]
      have hmap : (Label.Data ∘ fun p => (⟨p.length % 256, p⟩ : Label)) =
          fun p : List Nat => p := rfl
      rw [hmap, List.map_id']
      exact List.intercalate_splitOn (trimDot s) 46
  · decide

/-- Witness for C8 at the domain "example.com". -/
theorem string_name_roundtrip_witness :
    LabelsToString
        (StringToLabels [101, 120, 97, 109, 112, 108, 101, 46, 99, 111, 109]) =
      trimDot [101, 120, 97, 109, 112, 108, 101, 46, 99, 111, 109] :=
  string_name_roundtrip.1 [101, 120, 97, 109, 112, 108, 101, 46, 99, 111, 109]
    (Or.inr (by decide))

end GoDNS
